import Mathlib

/-!
Verification development for the mumble-migrator migration engine.

The program copies 13 tables from a mysql source to a sqlite destination:
it opens both connections, validates that the expected tables exist on both
sides, then for each table in a fixed order reads all rows from the source,
deletes all rows from the destination table, and re-inserts the read rows
(fanned out, joined with a single all-or-fail barrier), each table wrapped
in its own try/catch; finally it closes the sqlite connection, then the
mysql connection.

The embedding below is a shallow, deterministic model of one run: external
I/O outcomes (connection success, catalog query results, per-operation
failures) are supplied up front by a World value, and the run is a pure
function from the World to the final destination database contents and the
ordered list of observable events (log lines, connection closes).
-/

/-- A scalar cell value: integers, strings and SQL NULL (also standing in
for an absent JS property, which is bound as null by the driver). -/
inductive Value where
  | intV : Int → Value
  | strV : String → Value
  | nullV : Value
deriving DecidableEq, Repr

/-- A row as returned by a select: an association list from column name to
value, in the result-set column order. -/
def Row : Type := List (String × Value)

instance : DecidableEq Row := by
  unfold Row
  infer_instance

/-- Reading a property of a row object, as in acl.server_id: absent
properties read as null. -/
def rowGet (r : Row) (c : String) : Value :=
  (List.lookup c r).getD Value.nullV

/-- The row actually written by a parameterized insert that binds, for each
column of the hardcoded column list, the value of the correspondingly named
property of the source row. -/
def project (cols : List String) (r : Row) : Row :=
  cols.map (fun c => (c, rowGet r c))

/-- Every observable action of a run, in order: the log lines the engine
emits and the two connection-close effects. -/
inductive Ev where
  | infoConnectingMysql
  | errorConnectMysql
  | infoConnectingSqlite
  | errorConnectSqlite
  | errorOneNotConnected
  | errorMissingMysql (tables : List String)
  | errorMissingSqlite (tables : List String)
  | errorCatalogQuery
  | errorDatabasesNotOk
  | infoMigrating (table : String)
  | infoMigratingEntity (table : String) (field : Value)
  | infoDone
  | errorTableFailed (table : String)
  | infoClosingSqlite
  | closeSqlite
  | infoClosingMysql
  | closeMysql
  | infoGoodBye
deriving DecidableEq, Repr

/-- One of the 13 hardcoded table transfer routines: the table name, the
column list of its insert statement, and, for the three routines that log
one line per migrated entity, the property they log. -/
structure TableSpec where
  name : String
  cols : List String
  logField : Option String
deriving DecidableEq, Repr

def serversSpec : TableSpec :=
  ⟨"servers", ["server_id"], none⟩

def channelsSpec : TableSpec :=
  ⟨"channels", ["server_id", "channel_id", "parent_id", "name", "inheritacl"], some "name"⟩

def usersSpec : TableSpec :=
  ⟨"users", ["server_id", "user_id", "name", "pw", "salt", "kdfiterations", "lastchannel",
    "texture", "last_active"], some "name"⟩

def groupsSpec : TableSpec :=
  ⟨"groups", ["group_id", "server_id", "name", "channel_id", "inherit", "inheritable"],
    some "name"⟩

def aclSpec : TableSpec :=
  ⟨"acl", ["server_id", "channel_id", "priority", "user_id", "group_name", "apply_here",
    "apply_sub", "grantpriv", "revokepriv"], none⟩

def bansSpec : TableSpec :=
  ⟨"bans", ["server_id", "base", "mask", "name", "hash", "reason", "start", "duration"], none⟩

def channelInfoSpec : TableSpec :=
  ⟨"channel_info", ["server_id", "channel_id", "key", "value"], none⟩

def channelLinksSpec : TableSpec :=
  ⟨"channel_links", ["server_id", "channel_id", "link_id"], none⟩

def configSpec : TableSpec :=
  ⟨"config", ["server_id", "key", "value"], none⟩

def groupMembersSpec : TableSpec :=
  ⟨"group_members", ["group_id", "server_id", "user_id", "addit"], none⟩

def metaSpec : TableSpec :=
  ⟨"meta", ["keystring", "value"], none⟩

def slogSpec : TableSpec :=
  ⟨"slog", ["server_id", "msg", "msgtime"], none⟩

def userInfoSpec : TableSpec :=
  ⟨"user_info", ["server_id", "user_id", "key", "value"], none⟩

/-- The 13 table routines in the exact order execute invokes them. -/
def migrationTables : List TableSpec :=
  [serversSpec, channelsSpec, usersSpec, groupsSpec, aclSpec, bansSpec, channelInfoSpec,
    channelLinksSpec, configSpec, groupMembersSpec, metaSpec, slogSpec, userInfoSpec]

/-- The expectedTables list of checkTables, in its source order. -/
def expectedTables : List String :=
  ["acl", "bans", "channel_info", "channel_links", "channels", "config", "group_members",
    "groups", "meta", "servers", "slog", "user_info", "users"]

/-- A database side: contents of each table by name. -/
def DB : Type := String → List Row

/-- All external outcomes of one run, fixed up front: whether each
connection opens, what each catalog query returns (none = the query
throws), the source contents each select returns, the initial destination
contents, and which destination operations fail (delete per table, insert
per table and row index). -/
structure World where
  mysqlUp : Bool
  sqliteUp : Bool
  mysqlCatalog : Option (List String)
  sqliteCatalog : Option (List String)
  src : DB
  dest0 : DB
  readFails : String → Bool
  clearFails : String → Bool
  insertFails : String → Nat → Bool

/-- The ramda without(xs, ys): the elements of ys that do not occur in xs,
in the order of ys. -/
def without (xs ys : List String) : List String :=
  ys.filter (fun t => ! xs.contains t)

/-- checkTables: queries both catalogs (a failure of either query is the
single catch branch), computes without(found, expected) for mysql first
and returns false reporting only that side when non-empty, then the same
for sqlite, and returns true only when both differences are empty. -/
def checkTables (mysqlCatalog sqliteCatalog : Option (List String)) : Bool × List Ev :=
  match mysqlCatalog, sqliteCatalog with
  | some mysqlTables, some sqliteTables =>
    let missingMysqlTables := without mysqlTables expectedTables
    if missingMysqlTables.length > 0 then
      (false, [Ev.errorMissingMysql missingMysqlTables])
    else
      let missingSqliteTables := without sqliteTables expectedTables
      if missingSqliteTables.length > 0 then
        (false, [Ev.errorMissingSqlite missingSqliteTables])
      else
        (true, [])
  | _, _ => (false, [Ev.errorCatalogQuery])

/-- The fanned-out insert phase over the read rows, indexed from i: returns
the rows whose insert succeeded (the others are absent — no rollback of
siblings) and whether every insert succeeded (the Promise.all barrier). -/
def insertPhase (w : World) (spec : TableSpec) : Nat → List Row → List Row × Bool
  | _, [] => ([], true)
  | i, r :: rs =>
    let rest := insertPhase w spec (i + 1) rs
    if w.insertFails spec.name i then
      (rest.1, false)
    else
      (project spec.cols r :: rest.1, rest.2)

/-- Result of one table migration step: the destination afterwards, whether
the step succeeded (a failure anywhere makes the awaited call throw), and
the log events it emitted. -/
structure StepResult where
  db : DB
  ok : Bool
  events : List Ev

/-- The per-entity info lines a migrate routine emits while fanning out:
one line per read row for the three routines with a logField (each async
callback logs before awaiting its insert, so the line appears whether or
not that insert later fails), none for the other ten. -/
def entityLogs (spec : TableSpec) (rows : List Row) : List Ev :=
  match spec.logField with
  | some f => rows.map (fun r => Ev.infoMigratingEntity spec.name (rowGet r f))
  | none => []

/-- One migrate routine for table spec: select * from the source (a
failure throws before anything else), delete from the destination table (a
failure throws with the destination unchanged), then fan out one insert
per row. -/
def migrateTable (w : World) (spec : TableSpec) (dest : DB) : StepResult :=
  if w.readFails spec.name then
    { db := dest, ok := false, events := [] }
  else
    let rows := w.src spec.name
    if w.clearFails spec.name then
      { db := dest, ok := false, events := [] }
    else
      let ins := insertPhase w spec 0 rows
      { db := fun t => if t = spec.name then ins.1 else dest t
        ok := ins.2
        events := entityLogs spec rows }

/-- The try/catch wrapper around one migrate call in execute: the info
header, the events of the call itself, and Done on success or the caught
error on failure. -/
def migSegment (w : World) (spec : TableSpec) (dest : DB) : DB × List Ev :=
  let step := migrateTable w spec dest
  (step.db,
    Ev.infoMigrating spec.name :: step.events ++
      [if step.ok then Ev.infoDone else Ev.errorTableFailed spec.name])

/-- The migration phase of execute: each table in order, each wrapped
individually, the next started only after the previous returned or threw. -/
def runMigrations (w : World) : List TableSpec → DB → DB × List Ev
  | [], dest => (dest, [])
  | spec :: rest, dest =>
    let seg := migSegment w spec dest
    let tail := runMigrations w rest seg.1
    (tail.1, seg.2 ++ tail.2)

/-- connectMysql: logs the connection attempt; on success yields the
connection, on failure catches the error, logs it and yields none — the
provisioner never raises past its own boundary. The connection itself
carries no data in this model, so it is a unit value. -/
def connectMysql (up : Bool) : Option Unit × List Ev :=
  (if up then some () else none,
    Ev.infoConnectingMysql :: (if up then [] else [Ev.errorConnectMysql]))

/-- connectSqlite: same contract as connectMysql for the sqlite side. -/
def connectSqlite (up : Bool) : Option Unit × List Ev :=
  (if up then some () else none,
    Ev.infoConnectingSqlite :: (if up then [] else [Ev.errorConnectSqlite]))

/-- execute: connect mysql then sqlite (both attempts always made); if
either connection is absent, log and return at once; run checkTables and
log databases-not-ok on false but continue regardless; run the 13
migrations; close sqlite then mysql and log good bye. Returns the final
destination and the event trace. -/
def execute (w : World) : DB × List Ev :=
  let mysql := connectMysql w.mysqlUp
  let sqlite := connectSqlite w.sqliteUp
  if mysql.1.isNone || sqlite.1.isNone then
    (w.dest0, mysql.2 ++ sqlite.2 ++ [Ev.errorOneNotConnected])
  else
    let check := checkTables w.mysqlCatalog w.sqliteCatalog
    let checkEvents := check.2 ++ (if check.1 then [] else [Ev.errorDatabasesNotOk])
    let mig := runMigrations w migrationTables w.dest0
    (mig.1,
      mysql.2 ++ sqlite.2 ++ checkEvents ++ mig.2 ++
        [Ev.infoClosingSqlite, Ev.closeSqlite, Ev.infoClosingMysql, Ev.closeMysql,
          Ev.infoGoodBye])

/-- A table migration step succeeds when its read, its clear and every one
of its row inserts succeed. -/
def stepSucceeds (w : World) (spec : TableSpec) : Prop :=
  w.readFails spec.name = false ∧ w.clearFails spec.name = false ∧
    ∀ i < (w.src spec.name).length, w.insertFails spec.name i = false

/-! ### Helper lemmas about one table migration step -/

lemma migrateTable_db_ne (w : World) (spec : TableSpec) (dest : DB) (t : String)
    (ht : t ≠ spec.name) : (migrateTable w spec dest).db t = dest t := by
  unfold migrateTable
  split
  · rfl
  · split
    · rfl
    · simp [ht]

lemma insertPhase_all_ok (w : World) (spec : TableSpec) (rows : List Row) (k : Nat)
    (h : ∀ i < rows.length, w.insertFails spec.name (k + i) = false) :
    insertPhase w spec k rows = (rows.map (project spec.cols), true) := by
  induction rows generalizing k with
  | nil => rfl
  | cons r rs ih =>
    have h0 : w.insertFails spec.name k = false := by
      have := h 0 (by simp)
      simpa using this
    have hrest : insertPhase w spec (k + 1) rs = (rs.map (project spec.cols), true) := by
      apply ih
      intro i hi
      have := h (i + 1) (by simpa using Nat.succ_lt_succ hi)
      simpa [Nat.add_comm, Nat.add_assoc, Nat.add_left_comm] using this
    simp [insertPhase, h0, hrest]

lemma migrateTable_success (w : World) (spec : TableSpec) (dest : DB)
    (h : stepSucceeds w spec) :
    (migrateTable w spec dest).db spec.name = (w.src spec.name).map (project spec.cols) ∧
      (migrateTable w spec dest).ok = true := by
  obtain ⟨hr, hc, hi⟩ := h
  have hins : insertPhase w spec 0 (w.src spec.name) =
      ((w.src spec.name).map (project spec.cols), true) := by
    apply insertPhase_all_ok
    intro i hlt
    simpa using hi i hlt
  unfold migrateTable
  simp [hr, hc, hins]

/-! ### Helper lemmas about the migration phase fold -/

lemma runMigrations_db_not_mem (w : World) (specs : List TableSpec) (dest : DB) (t : String)
    (ht : t ∉ specs.map TableSpec.name) :
    (runMigrations w specs dest).1 t = dest t := by
  induction specs generalizing dest with
  | nil => rfl
  | cons spec rest ih =>
    have hne : t ≠ spec.name := by
      intro hEq
      exact ht (by simp [hEq])
    have hrest : t ∉ rest.map TableSpec.name := by
      intro hmem
      exact ht (by simp [hmem])
    show (runMigrations w rest (migSegment w spec dest).1).1 t = dest t
    rw [ih _ hrest]
    exact migrateTable_db_ne w spec dest t hne

lemma runMigrations_db_of_mem (w : World) (specs : List TableSpec) (dest : DB)
    (spec : TableSpec) (hmem : spec ∈ specs) (hnd : (specs.map TableSpec.name).Nodup)
    (hok : stepSucceeds w spec) :
    (runMigrations w specs dest).1 spec.name = (w.src spec.name).map (project spec.cols) := by
  induction specs generalizing dest with
  | nil => cases hmem
  | cons s rest ih =>
    rw [List.map_cons, List.nodup_cons] at hnd
    rcases List.mem_cons.mp hmem with hEq | hmem'
    · subst hEq
      show (runMigrations w rest (migSegment w spec dest).1).1 spec.name = _
      rw [runMigrations_db_not_mem w rest _ _ hnd.1]
      exact (migrateTable_success w spec dest hok).1
    · show (runMigrations w rest (migSegment w s dest).1).1 spec.name = _
      exact ih ((migSegment w s dest).1) hmem' hnd.2

lemma map_project_id (cols : List String) (l : List Row)
    (h : ∀ r ∈ l, project cols r = r) : l.map (project cols) = l := by
  induction l with
  | nil => rfl
  | cons a as ih =>
    have ha := h a (by simp)
    have has : ∀ r ∈ as, project cols r = r := fun r hr => h r (by simp [hr])
    simp [ha, ih has]

lemma migrationTables_names_nodup : (migrationTables.map TableSpec.name).Nodup := by
  decide

/-- Claim C1: for every one of the 13 tables, after a run in which that
table migration step succeeds, the multiset of rows in the destination
table equals the multiset of rows read from the source table at read time
(column values equal per row, order-independent); any rows present only in
the destination before the run are discarded for that table. The
hypothesis hwf states that each read row carries exactly the declared
columns of the table, which is what select * returns on this schema. -/
theorem migrated_table_matches_source (w : World) (spec : TableSpec)
    (hmem : spec ∈ migrationTables)
    (hm : w.mysqlUp = true) (hs : w.sqliteUp = true)
    (hok : stepSucceeds w spec)
    (hwf : ∀ r ∈ w.src spec.name, project spec.cols r = r) :
    Multiset.ofList ((execute w).1 spec.name) = Multiset.ofList (w.src spec.name) := by
  have hdb : (execute w).1 = (runMigrations w migrationTables w.dest0).1 := by
    unfold execute
    simp [hm, hs, connectMysql, connectSqlite]
  rw [hdb,
    runMigrations_db_of_mem w migrationTables w.dest0 spec hmem migrationTables_names_nodup hok,
    map_project_id spec.cols _ hwf]

/-- A concrete run for the C1 witness: both connections open, two source
rows in servers, one stale destination row, no operation fails. -/
def replaceWorld : World :=
  { mysqlUp := true
    sqliteUp := true
    mysqlCatalog := some expectedTables
    sqliteCatalog := some expectedTables
    src := fun t =>
      if t = "servers" then [[("server_id", Value.intV 1)], [("server_id", Value.intV 2)]]
      else []
    dest0 := fun t => if t = "servers" then [[("server_id", Value.intV 9)]] else []
    readFails := fun _ => false
    clearFails := fun _ => false
    insertFails := fun _ _ => false }

/-- Witness for C1 at the concrete run replaceWorld and the servers table. -/
theorem migrated_table_matches_source_witness :
    Multiset.ofList ((execute replaceWorld).1 "servers") =
      Multiset.ofList (replaceWorld.src "servers") := by
  have h := migrated_table_matches_source replaceWorld serversSpec
    (by simp [migrationTables]) rfl rfl
    ⟨rfl, rfl, fun i _ => rfl⟩
    (by decide)
  simpa [serversSpec] using h

/-! ### Claim C4: the validator returns true exactly when nothing is missing -/

lemma without_expected_nil_iff (found : List String) :
    without found expectedTables = [] ↔ ∀ t ∈ expectedTables, t ∈ found := by
  unfold without
  rw [List.filter_eq_nil_iff]
  constructor
  · intro h t ht
    have h1 := h t ht
    cases hcb : found.contains t with
    | false => exact absurd (by rw [hcb]; rfl) h1
    | true => exact List.elem_iff.mp hcb
  · intro h t ht
    have hc : found.contains t = true := List.elem_iff.mpr (h t ht)
    simp [hc, h t ht]

lemma checkTables_mysql_missing (mt st : List String)
    (h : without mt expectedTables ≠ []) :
    checkTables (some mt) (some st) =
      (false, [Ev.errorMissingMysql (without mt expectedTables)]) := by
  simp only [checkTables]
  rw [if_pos (List.length_pos.mpr h)]

lemma checkTables_sqlite_missing (mt st : List String)
    (hm : without mt expectedTables = [])
    (h : without st expectedTables ≠ []) :
    checkTables (some mt) (some st) =
      (false, [Ev.errorMissingSqlite (without st expectedTables)]) := by
  simp only [checkTables]
  rw [if_neg (by rw [hm]; simp), if_pos (List.length_pos.mpr h)]

lemma checkTables_both_complete (mt st : List String)
    (hm : without mt expectedTables = [])
    (hs : without st expectedTables = []) :
    checkTables (some mt) (some st) = (true, []) := by
  simp only [checkTables]
  rw [if_neg (by rw [hm]; simp), if_neg (by rw [hs]; simp)]

/-- Claim C4: checkTables returns true if and only if both catalog queries
succeed and both catalogs contain all 13 expected table names; extra
catalog entries never cause a false result, and a failed catalog query
yields false. -/
theorem checkTables_true_iff_all_expected_present (cm cs : Option (List String)) :
    (checkTables cm cs).1 = true ↔
      ∃ mt st, cm = some mt ∧ cs = some st ∧
        ∀ t ∈ expectedTables, t ∈ mt ∧ t ∈ st := by
  cases cm with
  | none => simp [checkTables]
  | some mt =>
    cases cs with
    | none => simp [checkTables]
    | some st =>
      constructor
      · intro h
        refine ⟨mt, st, rfl, rfl, ?_⟩
        by_cases h1 : without mt expectedTables = []
        · by_cases h2 : without st expectedTables = []
          · intro t ht
            exact ⟨(without_expected_nil_iff mt).mp h1 t ht,
              (without_expected_nil_iff st).mp h2 t ht⟩
          · rw [checkTables_sqlite_missing mt st h1 h2] at h
            cases h
        · rw [checkTables_mysql_missing mt st h1] at h
          cases h
      · rintro ⟨mt', st', hmt, hst, hall⟩
        have hmtEq := Option.some_inj.mp hmt
        have hstEq := Option.some_inj.mp hst
        subst hmtEq
        subst hstEq
        rw [checkTables_both_complete mt st
          ((without_expected_nil_iff mt).mpr (fun t ht => (hall t ht).1))
          ((without_expected_nil_iff st).mpr (fun t ht => (hall t ht).2))]

/-- Witness for C4: with both catalogs holding all expected tables, one
with an extra entry, checkTables returns true. -/
theorem checkTables_true_iff_all_expected_present_witness :
    (checkTables (some ("extra" :: expectedTables)) (some expectedTables)).1 = true := by
  apply (checkTables_true_iff_all_expected_present
    (some ("extra" :: expectedTables)) (some expectedTables)).mpr
  exact ⟨"extra" :: expectedTables, expectedTables, rfl, rfl, by decide⟩

/-! ### Claim C5: reporting when both sides are missing tables -/

/-- A source catalog holding every expected table except acl. -/
def srcCatalogMissingAcl : List String :=
  ["bans", "channel_info", "channel_links", "channels", "config", "group_members",
    "groups", "meta", "servers", "slog", "user_info", "users"]

/-- A destination catalog holding every expected table except bans. -/
def dstCatalogMissingBans : List String :=
  ["acl", "channel_info", "channel_links", "channels", "config", "group_members",
    "groups", "meta", "servers", "slog", "user_info", "users"]

/-- Counterexample for claim C5: with the source catalog missing acl and
the destination catalog missing bans, checkTables reports only the source
side (missing acl) and returns false without ever reporting the
destination side, so the missing names are not reported for each side. -/
theorem checkTables_both_missing_reports_only_mysql :
    "bans" ∉ dstCatalogMissingBans ∧
    checkTables (some srcCatalogMissingAcl) (some dstCatalogMissingBans) =
      (false, [Ev.errorMissingMysql ["acl"]]) ∧
    Ev.errorMissingSqlite ["bans"] ∉
      (checkTables (some srcCatalogMissingAcl) (some dstCatalogMissingBans)).2 := by
  decide

/-- Claim C5 (amended): each missing set is still computed as the set
difference expected minus found, reported exactly and with a false result,
but the two sides are checked in sequence: when the source side is missing
any expected table, only the source side is reported and checkTables
returns at once; the destination side is reported only when the source
side is complete. -/
theorem checkTables_missing_reports (mt st : List String) :
    (without mt expectedTables ≠ [] →
      checkTables (some mt) (some st) =
        (false, [Ev.errorMissingMysql (without mt expectedTables)])) ∧
    (without mt expectedTables = [] → without st expectedTables ≠ [] →
      checkTables (some mt) (some st) =
        (false, [Ev.errorMissingSqlite (without st expectedTables)])) :=
  ⟨fun h => checkTables_mysql_missing mt st h,
    fun hm h => checkTables_sqlite_missing mt st hm h⟩

/-- Witness for C5 (amended) at concrete catalogs: a source missing acl is
reported as missing acl, and a complete source with a destination missing
bans is reported as missing bans. -/
theorem checkTables_missing_reports_witness :
    checkTables (some srcCatalogMissingAcl) (some expectedTables) =
      (false, [Ev.errorMissingMysql (without srcCatalogMissingAcl expectedTables)]) ∧
    checkTables (some expectedTables) (some dstCatalogMissingBans) =
      (false, [Ev.errorMissingSqlite (without dstCatalogMissingBans expectedTables)]) :=
  ⟨(checkTables_missing_reports srcCatalogMissingAcl expectedTables).1 (by decide),
    (checkTables_missing_reports expectedTables dstCatalogMissingBans).2
      (by decide) (by decide)⟩

/-! ### Claims C6 and C10: provisioning failure short-circuits the run -/

lemma execute_conn_fail (w : World) (h : (w.mysqlUp && w.sqliteUp) = false) :
    execute w = (w.dest0,
      (Ev.infoConnectingMysql :: (if w.mysqlUp then [] else [Ev.errorConnectMysql])) ++
        ((Ev.infoConnectingSqlite :: (if w.sqliteUp then [] else [Ev.errorConnectSqlite])) ++
          [Ev.errorOneNotConnected])) := by
  cases hm : w.mysqlUp <;> cases hs : w.sqliteUp <;>
    simp_all [execute, connectMysql, connectSqlite]

/-- Claim C6: if either connection fails to open, the provisioner reports
the failure and yields an absent connection, the orchestrator attempts and
reports both provisioning outcomes, and no table migration is attempted:
the destination database is untouched and no table migration event
appears in the trace. -/
theorem no_migration_when_connection_fails (w : World)
    (h : ¬ (w.mysqlUp = true ∧ w.sqliteUp = true)) :
    (w.mysqlUp = false → (connectMysql w.mysqlUp).1 = none ∧
      Ev.errorConnectMysql ∈ (connectMysql w.mysqlUp).2) ∧
    (w.sqliteUp = false → (connectSqlite w.sqliteUp).1 = none ∧
      Ev.errorConnectSqlite ∈ (connectSqlite w.sqliteUp).2) ∧
    (execute w).1 = w.dest0 ∧
    Ev.infoConnectingMysql ∈ (execute w).2 ∧
    Ev.infoConnectingSqlite ∈ (execute w).2 ∧
    (w.mysqlUp = false → Ev.errorConnectMysql ∈ (execute w).2) ∧
    (w.sqliteUp = false → Ev.errorConnectSqlite ∈ (execute w).2) ∧
    Ev.errorOneNotConnected ∈ (execute w).2 ∧
    ∀ t, Ev.infoMigrating t ∉ (execute w).2 := by
  have hb : (w.mysqlUp && w.sqliteUp) = false := by
    cases hm : w.mysqlUp with
    | false => rfl
    | true =>
      cases hs : w.sqliteUp with
      | false => rfl
      | true => exact absurd ⟨hm, hs⟩ h
  rw [execute_conn_fail w hb]
  refine ⟨?_, ?_, rfl, by simp, by simp, ?_, ?_, by simp, ?_⟩
  · intro hm
    simp [connectMysql, hm]
  · intro hs
    simp [connectSqlite, hs]
  · intro hm
    simp [hm]
  · intro hs
    simp [hs]
  · intro t
    cases hm : w.mysqlUp <;> cases hs : w.sqliteUp <;> simp [hm, hs]

/-- Witness for C6: a run whose sqlite connection fails to open leaves the
destination untouched. -/
def sqliteDownWorld : World :=
  { mysqlUp := true
    sqliteUp := false
    mysqlCatalog := some expectedTables
    sqliteCatalog := none
    src := fun _ => []
    dest0 := fun t => if t = "servers" then [[("server_id", Value.intV 7)]] else []
    readFails := fun _ => false
    clearFails := fun _ => false
    insertFails := fun _ _ => false }

theorem no_migration_when_connection_fails_witness :
    (connectSqlite sqliteDownWorld.sqliteUp).1 = none ∧
    (execute sqliteDownWorld).1 = sqliteDownWorld.dest0 ∧
      Ev.errorConnectSqlite ∈ (execute sqliteDownWorld).2 := by
  have h := no_migration_when_connection_fails sqliteDownWorld
    (by intro hc; cases hc.2)
  exact ⟨(h.2.1 rfl).1, h.2.2.1, h.2.2.2.2.2.2.1 rfl⟩

/-- Claim C10: when exactly one of the two connections opens, execute
returns immediately after reporting — the last trace event is the report
that one database could not be connected — and the successfully opened
connection is never closed: no close event occurs at all. -/
theorem single_connection_failure_skips_close (w : World)
    (h : w.mysqlUp ≠ w.sqliteUp) :
    Ev.closeSqlite ∉ (execute w).2 ∧
    Ev.closeMysql ∉ (execute w).2 ∧
    (execute w).2.getLast? = some Ev.errorOneNotConnected ∧
    (execute w).1 = w.dest0 := by
  cases hm : w.mysqlUp with
  | false =>
    cases hs : w.sqliteUp with
    | false =>
      rw [hm, hs] at h
      exact absurd rfl h
    | true =>
      rw [execute_conn_fail w (by rw [hm, hs]; rfl)]
      refine ⟨by simp [hm, hs], by simp [hm, hs], by simp [hm, hs], rfl⟩
  | true =>
    cases hs : w.sqliteUp with
    | false =>
      rw [execute_conn_fail w (by rw [hm, hs]; rfl)]
      refine ⟨by simp [hm, hs], by simp [hm, hs], by simp [hm, hs], rfl⟩
    | true =>
      rw [hm, hs] at h
      exact absurd rfl h

theorem single_connection_failure_skips_close_witness :
    Ev.closeSqlite ∉ (execute sqliteDownWorld).2 ∧
      Ev.closeMysql ∉ (execute sqliteDownWorld).2 := by
  have h := single_connection_failure_skips_close sqliteDownWorld (by intro hc; cases hc)
  exact ⟨h.1, h.2.1⟩

/-! ### Claim C7: a failed validation is reported but the run continues -/

lemma execute_connected (w : World) (hm : w.mysqlUp = true) (hs : w.sqliteUp = true) :
    execute w = ((runMigrations w migrationTables w.dest0).1,
      Ev.infoConnectingMysql :: Ev.infoConnectingSqlite ::
        (((checkTables w.mysqlCatalog w.sqliteCatalog).2 ++
            (if (checkTables w.mysqlCatalog w.sqliteCatalog).1 = true then []
              else [Ev.errorDatabasesNotOk])) ++
          ((runMigrations w migrationTables w.dest0).2 ++
            [Ev.infoClosingSqlite, Ev.closeSqlite, Ev.infoClosingMysql, Ev.closeMysql,
              Ev.infoGoodBye]))) := by
  unfold execute
  rw [hm, hs]
  simp [connectMysql, connectSqlite]

lemma infoMigrating_mem_runMigrations (w : World) (specs : List TableSpec) (dest : DB)
    (spec : TableSpec) (hmem : spec ∈ specs) :
    Ev.infoMigrating spec.name ∈ (runMigrations w specs dest).2 := by
  induction specs generalizing dest with
  | nil => cases hmem
  | cons s rest ih =>
    show Ev.infoMigrating spec.name ∈
      (migSegment w s dest).2 ++ (runMigrations w rest (migSegment w s dest).1).2
    rcases List.mem_cons.mp hmem with hEq | hmem'
    · subst hEq
      apply List.mem_append_left
      unfold migSegment
      simp
    · exact List.mem_append_right _ (ih _ hmem')

/-- Claim C7: when both connections open but checkTables returns false,
the orchestrator reports that the databases are not ok and still proceeds
to attempt all 13 table migrations. -/
theorem validation_failure_does_not_stop_migration (w : World)
    (hm : w.mysqlUp = true) (hs : w.sqliteUp = true)
    (hchk : (checkTables w.mysqlCatalog w.sqliteCatalog).1 = false) :
    Ev.errorDatabasesNotOk ∈ (execute w).2 ∧
    ∀ spec ∈ migrationTables, Ev.infoMigrating spec.name ∈ (execute w).2 := by
  rw [execute_connected w hm hs]
  constructor
  · simp [hchk]
  · intro spec hmem
    have hmem2 := infoMigrating_mem_runMigrations w migrationTables w.dest0 spec hmem
    simp [hmem2]

/-- A run for the C7 witness: both connections open but both catalog
queries fail, so checkTables returns false. -/
def badCatalogWorld : World :=
  { mysqlUp := true
    sqliteUp := true
    mysqlCatalog := none
    sqliteCatalog := none
    src := fun _ => []
    dest0 := fun _ => []
    readFails := fun _ => false
    clearFails := fun _ => false
    insertFails := fun _ _ => false }

theorem validation_failure_does_not_stop_migration_witness :
    Ev.errorDatabasesNotOk ∈ (execute badCatalogWorld).2 ∧
      Ev.infoMigrating "servers" ∈ (execute badCatalogWorld).2 := by
  have h := validation_failure_does_not_stop_migration badCatalogWorld rfl rfl rfl
  exact ⟨h.1, by
    simpa [serversSpec] using h.2 serversSpec (by simp [migrationTables])⟩

/-! ### Claims C2 and C3: fault isolation, closing order, sequencing -/

lemma migSegment_snd (w : World) (spec : TableSpec) (dest : DB) :
    (migSegment w spec dest).2 =
      Ev.infoMigrating spec.name :: ((migrateTable w spec dest).events ++
        [if (migrateTable w spec dest).ok then Ev.infoDone
          else Ev.errorTableFailed spec.name]) := rfl

lemma runMigrations_cons_snd (w : World) (s : TableSpec) (rest : List TableSpec) (dest : DB) :
    (runMigrations w (s :: rest) dest).2 =
      (migSegment w s dest).2 ++ (runMigrations w rest (migSegment w s dest).1).2 := rfl

lemma entityLogs_shape (spec : TableSpec) (rows : List Row) :
    ∀ e ∈ entityLogs spec rows, ∃ v, e = Ev.infoMigratingEntity spec.name v := by
  intro e he
  obtain ⟨n, c, lf⟩ := spec
  cases lf with
  | none =>
    simp only [entityLogs] at he
    cases he
  | some f =>
    simp only [entityLogs, List.mem_map] at he
    obtain ⟨r, _, hEq⟩ := he
    exact ⟨rowGet r f, hEq.symm⟩

lemma migrateTable_events_shape (w : World) (spec : TableSpec) (dest : DB) :
    ∀ e ∈ (migrateTable w spec dest).events,
      ∃ v, e = Ev.infoMigratingEntity spec.name v := by
  unfold migrateTable
  split
  · intro e he
    cases he
  · split
    · intro e he
      cases he
    · intro e he
      exact entityLogs_shape spec (w.src spec.name) e he

lemma checkTables_events_shape (cm cs : Option (List String)) :
    ∀ e ∈ (checkTables cm cs).2,
      e = Ev.errorCatalogQuery ∨ (∃ l, e = Ev.errorMissingMysql l) ∨
        ∃ l, e = Ev.errorMissingSqlite l := by
  intro e he
  cases cm with
  | none =>
    simp [checkTables] at he
    exact Or.inl he
  | some mt =>
    cases cs with
    | none =>
      simp [checkTables] at he
      exact Or.inl he
    | some st =>
      by_cases h1 : without mt expectedTables = []
      · by_cases h2 : without st expectedTables = []
        · rw [checkTables_both_complete mt st h1 h2] at he
          cases he
        · rw [checkTables_sqlite_missing mt st h1 h2] at he
          simp at he
          exact Or.inr (Or.inr ⟨_, he⟩)
      · rw [checkTables_mysql_missing mt st h1] at he
        simp at he
        exact Or.inr (Or.inl ⟨_, he⟩)

lemma runMigrations_events_shape (w : World) (specs : List TableSpec) (dest : DB) :
    ∀ e ∈ (runMigrations w specs dest).2,
      (∃ t, e = Ev.infoMigrating t) ∨ (∃ t v, e = Ev.infoMigratingEntity t v) ∨
        e = Ev.infoDone ∨ ∃ t, e = Ev.errorTableFailed t := by
  induction specs generalizing dest with
  | nil =>
    intro e he
    cases he
  | cons s rest ih =>
    intro e he
    rw [runMigrations_cons_snd] at he
    rcases List.mem_append.mp he with hseg | htail
    · rw [migSegment_snd] at hseg
      rcases List.mem_cons.mp hseg with hEq | hseg2
      · exact Or.inl ⟨s.name, hEq⟩
      rcases List.mem_append.mp hseg2 with hev | hterm
      · obtain ⟨v, hv⟩ := migrateTable_events_shape w s dest e hev
        exact Or.inr (Or.inl ⟨s.name, v, hv⟩)
      · simp only [List.mem_singleton] at hterm
        subst hterm
        split
        · exact Or.inr (Or.inr (Or.inl rfl))
        · exact Or.inr (Or.inr (Or.inr ⟨s.name, rfl⟩))
    · exact ih _ e htail

/-- Whether a table migration step succeeds: its read, its clear and all
of its row inserts succeed. Bool form of stepSucceeds. -/
def stepOk (w : World) (spec : TableSpec) : Bool :=
  !w.readFails spec.name &&
    (!w.clearFails spec.name && (insertPhase w spec 0 (w.src spec.name)).2)

lemma migrateTable_ok (w : World) (spec : TableSpec) (dest : DB) :
    (migrateTable w spec dest).ok = stepOk w spec := by
  unfold migrateTable stepOk
  cases hr : w.readFails spec.name with
  | true => simp
  | false =>
    cases hc : w.clearFails spec.name with
    | true => simp
    | false => simp

lemma errorTableFailed_mem_runMigrations (w : World) (specs : List TableSpec) (dest : DB)
    (spec : TableSpec) (hmem : spec ∈ specs) (hfail : stepOk w spec = false) :
    Ev.errorTableFailed spec.name ∈ (runMigrations w specs dest).2 := by
  induction specs generalizing dest with
  | nil => cases hmem
  | cons s rest ih =>
    rw [runMigrations_cons_snd]
    rcases List.mem_cons.mp hmem with hEq | hmem'
    · subst hEq
      apply List.mem_append_left
      rw [migSegment_snd]
      apply List.mem_cons_of_mem
      apply List.mem_append_right
      rw [migrateTable_ok, hfail]
      simp
    · exact List.mem_append_right _ (ih _ hmem')

lemma infoDone_mem_runMigrations (w : World) (specs : List TableSpec) (dest : DB)
    (spec : TableSpec) (hmem : spec ∈ specs) (hok : stepOk w spec = true) :
    Ev.infoDone ∈ (runMigrations w specs dest).2 := by
  induction specs generalizing dest with
  | nil => cases hmem
  | cons s rest ih =>
    rw [runMigrations_cons_snd]
    rcases List.mem_cons.mp hmem with hEq | hmem'
    · subst hEq
      apply List.mem_append_left
      rw [migSegment_snd]
      apply List.mem_cons_of_mem
      apply List.mem_append_right
      rw [migrateTable_ok, hok]
      simp
    · exact List.mem_append_right _ (ih _ hmem')

/-- Claim C2: in every run that reaches the migration phase, each failing
table migration is caught at its per-table call site and logged, every
table migration is attempted regardless of other failures (and successes
log done), and at the end both connections are closed exactly once each,
sqlite before mysql, regardless of how many table migrations failed. -/
theorem per_table_failures_isolated_and_closed_once (w : World)
    (hm : w.mysqlUp = true) (hs : w.sqliteUp = true) :
    (∀ spec ∈ migrationTables, Ev.infoMigrating spec.name ∈ (execute w).2) ∧
    (∀ spec ∈ migrationTables, stepOk w spec = false →
      Ev.errorTableFailed spec.name ∈ (execute w).2) ∧
    (∀ spec ∈ migrationTables, stepOk w spec = true → Ev.infoDone ∈ (execute w).2) ∧
    ∃ pre, (execute w).2 = pre ++
        [Ev.infoClosingSqlite, Ev.closeSqlite, Ev.infoClosingMysql, Ev.closeMysql,
          Ev.infoGoodBye] ∧
      Ev.closeSqlite ∉ pre ∧ Ev.closeMysql ∉ pre := by
  rw [execute_connected w hm hs]
  refine ⟨?_, ?_, ?_, ?_⟩
  · intro spec hmem
    have h2 := infoMigrating_mem_runMigrations w migrationTables w.dest0 spec hmem
    simp [h2]
  · intro spec hmem hfail
    have h2 := errorTableFailed_mem_runMigrations w migrationTables w.dest0 spec hmem hfail
    simp [h2]
  · intro spec hmem hok
    have h2 := infoDone_mem_runMigrations w migrationTables w.dest0 spec hmem hok
    simp [h2]
  · refine ⟨Ev.infoConnectingMysql :: Ev.infoConnectingSqlite ::
      (((checkTables w.mysqlCatalog w.sqliteCatalog).2 ++
        (if (checkTables w.mysqlCatalog w.sqliteCatalog).1 = true then []
          else [Ev.errorDatabasesNotOk])) ++
        (runMigrations w migrationTables w.dest0).2), ?_, ?_, ?_⟩
    · simp [List.append_assoc]
    · intro hmem
      simp only [List.mem_cons, List.mem_append] at hmem
      rcases hmem with h1 | h1 | (h1 | h1) | h1
      · cases h1
      · cases h1
      · rcases checkTables_events_shape _ _ _ h1 with hE | ⟨l, hE⟩ | ⟨l, hE⟩ <;> cases hE
      · by_cases hc : (checkTables w.mysqlCatalog w.sqliteCatalog).1 = true
        · rw [if_pos hc] at h1
          cases h1
        · rw [if_neg hc] at h1
          simp at h1
      · rcases runMigrations_events_shape w migrationTables w.dest0 _ h1 with
          ⟨t, hE⟩ | ⟨t, v, hE⟩ | hE | ⟨t, hE⟩ <;> cases hE
    · intro hmem
      simp only [List.mem_cons, List.mem_append] at hmem
      rcases hmem with h1 | h1 | (h1 | h1) | h1
      · cases h1
      · cases h1
      · rcases checkTables_events_shape _ _ _ h1 with hE | ⟨l, hE⟩ | ⟨l, hE⟩ <;> cases hE
      · by_cases hc : (checkTables w.mysqlCatalog w.sqliteCatalog).1 = true
        · rw [if_pos hc] at h1
          cases h1
        · rw [if_neg hc] at h1
          simp at h1
      · rcases runMigrations_events_shape w migrationTables w.dest0 _ h1 with
          ⟨t, hE⟩ | ⟨t, v, hE⟩ | hE | ⟨t, hE⟩ <;> cases hE

/-- A run for the C2 witness: both connections open, the users read fails,
everything else succeeds. -/
def usersFailWorld : World :=
  { mysqlUp := true
    sqliteUp := true
    mysqlCatalog := some expectedTables
    sqliteCatalog := some expectedTables
    src := fun _ => []
    dest0 := fun _ => []
    readFails := fun t => t == "users"
    clearFails := fun _ => false
    insertFails := fun _ _ => false }

theorem per_table_failures_isolated_and_closed_once_witness :
    Ev.errorTableFailed "users" ∈ (execute usersFailWorld).2 ∧
      Ev.infoMigrating "user_info" ∈ (execute usersFailWorld).2 := by
  have h := per_table_failures_isolated_and_closed_once usersFailWorld rfl rfl
  constructor
  · have hfail : stepOk usersFailWorld usersSpec = false := by decide
    simpa [usersSpec] using h.2.1 usersSpec (by simp [migrationTables]) hfail
  · simpa [userInfoSpec] using h.1 userInfoSpec (by simp [migrationTables])

lemma getLast?_cons_append_singleton (a x : Ev) (l : List Ev) :
    (a :: (l ++ [x])).getLast? = some x := by
  rw [← List.cons_append, List.getLast?_concat]

lemma runMigrations_segments (w : World) (specs : List TableSpec) (dest : DB) :
    ∃ segs : List (List Ev),
      (runMigrations w specs dest).2 = segs.flatten ∧
      List.Forall₂ (fun (spec : TableSpec) (seg : List Ev) =>
        seg.head? = some (Ev.infoMigrating spec.name) ∧
        (seg.getLast? = some Ev.infoDone ∨
          seg.getLast? = some (Ev.errorTableFailed spec.name)) ∧
        ∀ e ∈ seg.tail, ∀ t, e ≠ Ev.infoMigrating t) specs segs := by
  induction specs generalizing dest with
  | nil => exact ⟨[], rfl, List.Forall₂.nil⟩
  | cons s rest ih =>
    obtain ⟨segs, hjoin, hall⟩ := ih (migSegment w s dest).1
    refine ⟨(migSegment w s dest).2 :: segs, ?_, List.Forall₂.cons ⟨?_, ?_, ?_⟩ hall⟩
    · rw [runMigrations_cons_snd, hjoin]
      rfl
    · rw [migSegment_snd]
      rfl
    · cases hok : (migrateTable w s dest).ok with
      | true =>
        left
        rw [migSegment_snd, hok, if_pos rfl]
        exact getLast?_cons_append_singleton _ _ _
      | false =>
        right
        rw [migSegment_snd, hok, if_neg (by simp)]
        exact getLast?_cons_append_singleton _ _ _
    · rw [migSegment_snd]
      intro e he t
      simp only [List.tail_cons] at he
      rcases List.mem_append.mp he with hev | hterm
      · obtain ⟨v, hv⟩ := migrateTable_events_shape w s dest e hev
        subst hv
        intro hEq
        cases hEq
      · simp only [List.mem_singleton] at hterm
        subst hterm
        intro hEq
        split at hEq <;> cases hEq

/-- Claim C3: in every run that reaches the migration phase, the 13 table
migrators are invoked in exactly the fixed order servers, channels, users,
groups, acl, bans, channel_info, channel_links, config, group_members,
meta, slog, user_info: the trace decomposes into a prefix with no
migration-start event, one contiguous segment per table in that order —
each beginning with the start event of that table, containing no other start
event, and ending with its Done or failure event before the next segment
begins — and the closing suffix. -/
theorem migrators_invoked_in_fixed_order (w : World)
    (hm : w.mysqlUp = true) (hs : w.sqliteUp = true) :
    migrationTables.map TableSpec.name =
      ["servers", "channels", "users", "groups", "acl", "bans", "channel_info",
        "channel_links", "config", "group_members", "meta", "slog", "user_info"] ∧
    ∃ pre segs,
      (execute w).2 = pre ++ (segs.flatten ++
        [Ev.infoClosingSqlite, Ev.closeSqlite, Ev.infoClosingMysql, Ev.closeMysql,
          Ev.infoGoodBye]) ∧
      (∀ e ∈ pre, ∀ t, e ≠ Ev.infoMigrating t) ∧
      List.Forall₂ (fun (spec : TableSpec) (seg : List Ev) =>
        seg.head? = some (Ev.infoMigrating spec.name) ∧
        (seg.getLast? = some Ev.infoDone ∨
          seg.getLast? = some (Ev.errorTableFailed spec.name)) ∧
        ∀ e ∈ seg.tail, ∀ t, e ≠ Ev.infoMigrating t) migrationTables segs := by
  refine ⟨rfl, ?_⟩
  obtain ⟨segs, hjoin, hall⟩ := runMigrations_segments w migrationTables w.dest0
  refine ⟨Ev.infoConnectingMysql :: Ev.infoConnectingSqlite ::
    ((checkTables w.mysqlCatalog w.sqliteCatalog).2 ++
      (if (checkTables w.mysqlCatalog w.sqliteCatalog).1 = true then []
        else [Ev.errorDatabasesNotOk])), segs, ?_, ?_, hall⟩
  · rw [execute_connected w hm hs, ← hjoin]
    simp [List.append_assoc]
  · intro e he t
    simp only [List.mem_cons, List.mem_append] at he
    rcases he with h1 | h1 | h1 | h1
    · subst h1
      intro hEq
      cases hEq
    · subst h1
      intro hEq
      cases hEq
    · rcases checkTables_events_shape _ _ _ h1 with hE | ⟨l, hE⟩ | ⟨l, hE⟩ <;>
        (subst hE; intro hEq; cases hEq)
    · by_cases hc : (checkTables w.mysqlCatalog w.sqliteCatalog).1 = true
      · rw [if_pos hc] at h1
        cases h1
      · rw [if_neg hc] at h1
        simp only [List.mem_singleton] at h1
        subst h1
        intro hEq
        cases hEq

theorem migrators_invoked_in_fixed_order_witness :
    migrationTables.map TableSpec.name =
      ["servers", "channels", "users", "groups", "acl", "bans", "channel_info",
        "channel_links", "config", "group_members", "meta", "slog", "user_info"] :=
  (migrators_invoked_in_fixed_order usersFailWorld rfl rfl).1

/-! ### Claim C8: one failed insert fails the step, no rollback -/

lemma insertPhase_cons (w : World) (spec : TableSpec) (k : Nat) (r : Row) (rs : List Row) :
    insertPhase w spec k (r :: rs) =
      if w.insertFails spec.name k then ((insertPhase w spec (k + 1) rs).1, false)
      else (project spec.cols r :: (insertPhase w spec (k + 1) rs).1,
        (insertPhase w spec (k + 1) rs).2) := rfl

lemma insertPhase_snd_false (w : World) (spec : TableSpec) (rows : List Row) (k i : Nat)
    (hi : i < rows.length) (hfail : w.insertFails spec.name (k + i) = true) :
    (insertPhase w spec k rows).2 = false := by
  induction rows generalizing k i with
  | nil => cases hi
  | cons r rs ih =>
    rw [insertPhase_cons]
    cases i with
    | zero =>
      rw [Nat.add_zero] at hfail
      rw [if_pos hfail]
    | succ j =>
      have hfail2 : w.insertFails spec.name ((k + 1) + j) = true := by
        rw [show (k + 1) + j = k + (j + 1) by omega]
        exact hfail
      have hrec := ih (k + 1) j (Nat.lt_of_succ_lt_succ hi) hfail2
      by_cases hf : w.insertFails spec.name k = true
      · rw [if_pos hf]
      · rw [if_neg hf]
        exact hrec

lemma insertPhase_fst_mem (w : World) (spec : TableSpec) (rows : List Row) (k j : Nat)
    (hj : j < rows.length) (hok : w.insertFails spec.name (k + j) = false) :
    project spec.cols (rows.get ⟨j, hj⟩) ∈ (insertPhase w spec k rows).1 := by
  induction rows generalizing k j with
  | nil => cases hj
  | cons r rs ih =>
    rw [insertPhase_cons]
    cases j with
    | zero =>
      rw [Nat.add_zero] at hok
      rw [if_neg (by simp [hok])]
      exact List.mem_cons_self _ _
    | succ i =>
      have hok2 : w.insertFails spec.name ((k + 1) + i) = false := by
        rw [show (k + 1) + i = k + (i + 1) by omega]
        exact hok
      have hmem := ih (k + 1) i (Nat.lt_of_succ_lt_succ hj) hok2
      by_cases hf : w.insertFails spec.name k = true
      · rw [if_pos hf]
        simpa using hmem
      · rw [if_neg hf]
        exact List.mem_cons_of_mem _ (by simpa using hmem)

/-- Claim C8: for every table, if any single row insert fails during the
write phase while the read and the clear succeeded, the whole table
migration step fails (completion is gated on all row inserts), each insert
is issued exactly once with no retry, and every row whose insert succeeded
remains in the destination table — no rollback and no transactional
atomicity within the table. -/
theorem row_insert_failure_fails_step_without_rollback (w : World) (spec : TableSpec)
    (dest : DB) (i : Nat)
    (hr : w.readFails spec.name = false) (hc : w.clearFails spec.name = false)
    (hi : i < (w.src spec.name).length)
    (hfail : w.insertFails spec.name i = true) :
    (migrateTable w spec dest).ok = false ∧
    ∀ j (hj : j < (w.src spec.name).length), w.insertFails spec.name j = false →
      project spec.cols ((w.src spec.name).get ⟨j, hj⟩) ∈
        (migrateTable w spec dest).db spec.name := by
  have hdb : (migrateTable w spec dest).db spec.name =
      (insertPhase w spec 0 (w.src spec.name)).1 := by
    unfold migrateTable
    rw [if_neg (by simp [hr]), if_neg (by simp [hc])]
    simp
  constructor
  · rw [migrateTable_ok]
    unfold stepOk
    rw [hr, hc]
    have hsnd := insertPhase_snd_false w spec (w.src spec.name) 0 i hi
      (by simpa using hfail)
    simp [hsnd]
  · intro j hj hok
    rw [hdb]
    exact insertPhase_fst_mem w spec (w.src spec.name) 0 j hj (by simpa using hok)

def srow0 : Row := [("server_id", Value.intV 1)]

def srow1 : Row := [("server_id", Value.intV 2)]

/-- A run for the C8 witness: two servers rows, the insert of the second
row (index 1) fails, everything else succeeds. -/
def insertFailWorld : World :=
  { mysqlUp := true
    sqliteUp := true
    mysqlCatalog := some expectedTables
    sqliteCatalog := some expectedTables
    src := fun t => if t = "servers" then [srow0, srow1] else []
    dest0 := fun _ => []
    readFails := fun _ => false
    clearFails := fun _ => false
    insertFails := fun t i => t == "servers" && i == 1 }

theorem row_insert_failure_fails_step_without_rollback_witness :
    (migrateTable insertFailWorld serversSpec insertFailWorld.dest0).ok = false ∧
      project serversSpec.cols ((insertFailWorld.src "servers").get ⟨0, by decide⟩) ∈
        (migrateTable insertFailWorld serversSpec insertFailWorld.dest0).db "servers" := by
  have h := row_insert_failure_fails_step_without_rollback insertFailWorld serversSpec
    insertFailWorld.dest0 1 rfl rfl (by decide) rfl
  exact ⟨h.1, by simpa [serversSpec] using h.2 0 (by decide) rfl⟩

/-! ### Claim C9: when the clear actually runs -/

def staleChannelRow1 : Row :=
  [("server_id", Value.intV 1), ("channel_id", Value.intV 1), ("parent_id", Value.nullV),
    ("name", Value.strV "old1"), ("inheritacl", Value.intV 1)]

def staleChannelRow2 : Row :=
  [("server_id", Value.intV 1), ("channel_id", Value.intV 2), ("parent_id", Value.intV 1),
    ("name", Value.strV "old2"), ("inheritacl", Value.intV 1)]

/-- A run in which the channels read fails, the source channels table is
empty and the destination holds two stale channel rows. -/
def readFailWorld : World :=
  { mysqlUp := true
    sqliteUp := true
    mysqlCatalog := some expectedTables
    sqliteCatalog := some expectedTables
    src := fun _ => []
    dest0 := fun t => if t = "channels" then [staleChannelRow1, staleChannelRow2] else []
    readFails := fun t => t == "channels"
    clearFails := fun _ => false
    insertFails := fun _ _ => false }

/-- Counterexample for claim C9: the clear is in fact conditioned on the
read step succeeding. With the source channels table empty and the
destination holding two stale rows, a failing read aborts the migration
step before the delete is issued, so the destination still holds the stale
rows after the step — the destination is not empty even though the source
is. -/
theorem clear_skipped_when_read_fails :
    readFailWorld.src "channels" = [] ∧
    (migrateTable readFailWorld channelsSpec readFailWorld.dest0).db "channels" =
      [staleChannelRow1, staleChannelRow2] ∧
    (migrateTable readFailWorld channelsSpec readFailWorld.dest0).db "channels" ≠ [] ∧
    (migrateTable readFailWorld channelsSpec readFailWorld.dest0).ok = false := by
  refine ⟨rfl, rfl, by decide, rfl⟩

/-- Claim C9 (amended): provided the read and the clear operations
succeed, the clear is an unconditional full clear, not conditioned on the
read returning a non-empty result: the destination table contents after
the step do not depend on the prior destination contents at all, and in
particular when the source table is empty the destination table is empty
after the step. If the read fails, the step aborts before clearing. -/
theorem clear_unconditional_on_content (w : World) (spec : TableSpec) (dest dest2 : DB)
    (hr : w.readFails spec.name = false) (hc : w.clearFails spec.name = false) :
    ((migrateTable w spec dest).db spec.name =
      (migrateTable w spec dest2).db spec.name) ∧
    (w.src spec.name = [] → (migrateTable w spec dest).db spec.name = []) := by
  have hdb : ∀ d : DB, (migrateTable w spec d).db spec.name =
      (insertPhase w spec 0 (w.src spec.name)).1 := by
    intro d
    unfold migrateTable
    rw [if_neg (by simp [hr]), if_neg (by simp [hc])]
    simp
  refine ⟨by rw [hdb, hdb], ?_⟩
  intro hsrc
  rw [hdb, hsrc]
  rfl

/-- A run with an empty source, a stale destination channel row, and no
failing operations, for the C9 witness. -/
def staleDestWorld : World :=
  { mysqlUp := true
    sqliteUp := true
    mysqlCatalog := some expectedTables
    sqliteCatalog := some expectedTables
    src := fun _ => []
    dest0 := fun t => if t = "channels" then [staleChannelRow1] else []
    readFails := fun _ => false
    clearFails := fun _ => false
    insertFails := fun _ _ => false }

theorem clear_unconditional_on_content_witness :
    (migrateTable staleDestWorld channelsSpec staleDestWorld.dest0).db "channels" = [] := by
  have h := clear_unconditional_on_content staleDestWorld channelsSpec
    staleDestWorld.dest0 (fun _ => []) rfl rfl
  simpa [channelsSpec] using h.2 rfl
